import Mathlib

/-!
Shallow embedding of `src/automation/teams_responses.py`
(`TeamsReactionsClient` and the module-level `list_like_reactors` wrapper).

The Python code works on raw JSON dictionaries; here each shape the code
probes is modelled by an explicit Lean type, and the HTTP layer is modelled
by a `World` supplying the raw responses the `requests` session would
deliver (after the transport's own retry machinery, which is out of scope:
`_get_json` only ever sees the final response of a retry cycle, or a
transport exception).
-/

set_option autoImplicit false

namespace TeamsResponses

/-- Value of the `user` / `createdBy` key of a reaction record, as the code
observes it through `reaction.get("user", {}) or reaction.get("createdBy", {})`.

`absent` covers every falsy outcome of `.get(key, {})`: key missing (default
`{}`), key present with value `null`, or key present with an empty dict `{}`.
All three behave identically in the source (falsy operand of `or`, and
`.get("id")` on them yields `None`).

`ref id` is a non-empty dict; `id` is the value of its `"id"` entry
(`none` when the entry is missing or `null`). -/
inductive UserRef where
  | absent : UserRef
  | ref (id : Option String) : UserRef
deriving DecidableEq, Repr

/-- One element of a reactions page, as probed by `_extract_liker_ids`:
`reaction.get("reactionType")` (`none` = key missing or `null`) plus the
`user` and `createdBy` fields. -/
structure ReactionRecord where
  reactionType : Option String
  user : UserRef
  createdBy : UserRef
deriving DecidableEq, Repr

/-- A reactions-page JSON payload, as probed by `_collect_reactions`:
`payload.get("value", [])` and `payload.get("@odata.nextLink")`.
`value = none` models a payload without a usable `value` key (the code
substitutes `[]`); `odataNextLink = none` models an absent or `null`
continuation link. A falsy payload (`{}` or JSON `null`) behaves exactly
like `⟨none, none⟩` in the source (`if payload else` branches). -/
structure PagePayload where
  value : Option (List ReactionRecord)
  odataNextLink : Option String
deriving DecidableEq, Repr

/-- A user-lookup JSON payload, as probed by `_fetch_user_display_name`:
`payload.get("displayName") if payload else None`. -/
structure UserPayload where
  displayName : Option String
deriving DecidableEq, Repr

/-- An HTTP response as `_get_json` sees it: the status code and the parsed
JSON body, `none` when `response.json()` raises `ValueError` (body is not
valid JSON of the expected shape). -/
structure RawResponse (α : Type) where
  status : Nat
  body : Option α
deriving DecidableEq, Repr

/-- Errors `_get_json` raises: `requests.HTTPError` from
`response.raise_for_status()` (carrying the status), `ValueError` from
`response.json()`, and a transport-level `requests.RequestException`
(re-raised by the `except` clause), which also models a world that has no
further response configured. -/
inductive GraphErr where
  | httpStatus (status : Nat) : GraphErr
  | invalidJson : GraphErr
  | requestFailed : GraphErr
deriving DecidableEq, Repr

/-- Model of `response.ok` of the `requests` library: true iff
`status_code < 400`. `raise_for_status` raises exactly when this is false
(the separate `500 <= status < 600` branch in `_get_json` only logs). -/
def statusOk (status : Nat) : Bool := status < 400

/-- Model of `_get_json` on a delivered response: raise `HTTPError` when
`not response.ok`, then return the parsed JSON or raise `ValueError`. -/
def getJson {α : Type} (r : RawResponse α) : Except GraphErr α :=
  if statusOk r.status then
    match r.body with
    | some j => Except.ok j
    | none => Except.error GraphErr.invalidJson
  else
    Except.error (GraphErr.httpStatus r.status)

/-- Python `str.strip("/")`: remove all leading and trailing `'/'`
characters. -/
def stripSlashes (s : String) : String :=
  ⟨(((s.data.dropWhile (· = '/')).reverse.dropWhile (· = '/')).reverse)⟩

/-- Python `str.rstrip("/")` applied to `base_url` in `__post_init__`. -/
def rstripSlashes (s : String) : String :=
  ⟨((s.data.reverse.dropWhile (· = '/')).reverse)⟩

/-- Model of `_build_reactions_url`:
`f"{self.base_url}/{message_resource.strip('/')}/reactions"`.
The `baseUrl` argument is the post-`__post_init__` (rstripped) base URL. -/
def buildReactionsUrl (baseUrl messageResource : String) : String :=
  baseUrl ++ "/" ++ stripSlashes messageResource ++ "/reactions"

/-- Character-wise ASCII lowercasing, the model of Python `str.lower` on
the ASCII range (it agrees with `String.toLower`, written over the char
list so that it computes by kernel reduction). -/
def lowerAscii (s : String) : String :=
  ⟨s.data.map Char.toLower⟩

/-- Model of `(reaction.get("reactionType") or "").lower()`. `Option.getD ""` captures
the `or ""` (both `None` and `""` give `""`); `lowerAscii` models
`str.lower` (the reaction-type alphabet is ASCII). -/
def normalizedType (r : ReactionRecord) : String :=
  lowerAscii (r.reactionType.getD "")

/-- The literal set `{"like", "thumbsup", "thumbs_up"}` from
`_extract_liker_ids`. -/
def likeTypes : List String := ["like", "thumbsup", "thumbs_up"]

/-- Python truthiness-based `or` on the two field values:
`reaction.get("user", {}) or reaction.get("createdBy", {})`. -/
def UserRef.orElse (a b : UserRef) : UserRef :=
  match a with
  | UserRef.absent => b
  | UserRef.ref id => UserRef.ref id

/-- Model of `.get("id")` on the chosen dict. -/
def UserRef.getId : UserRef → Option String
  | UserRef.absent => none
  | UserRef.ref id => id

/-- Model of `(reaction.get("user", {}) or reaction.get("createdBy", {})).get("id")`. -/
def userIdOf (r : ReactionRecord) : Option String :=
  (UserRef.orElse r.user r.createdBy).getId

/-- The loop body of `_extract_liker_ids`, carrying the `liker_ids` list and
the `seen` set (modelled as the list of ids in insertion order; only its
membership is ever consulted). -/
def extractLikerIdsAux : List ReactionRecord → List String → List String → List String
  | [], likerIds, _seen => likerIds
  | r :: rest, likerIds, seen =>
    if normalizedType r ∈ likeTypes then
      match userIdOf r with
      | some uid =>
        if uid ≠ "" ∧ uid ∉ seen then
          extractLikerIdsAux rest (likerIds ++ [uid]) (seen ++ [uid])
        else
          extractLikerIdsAux rest likerIds seen
      | none => extractLikerIdsAux rest likerIds seen
    else
      extractLikerIdsAux rest likerIds seen

/-- Model of `_extract_liker_ids`: filter to like-type reactions, extract
actor ids, drop falsy ids, deduplicate keeping first occurrences. -/
def extractLikerIds (reactions : List ReactionRecord) : List String :=
  extractLikerIdsAux reactions [] []

/-- The liker-id contribution of a single record before deduplication: the
id the loop of `_extract_liker_ids` would consider appending (like-type
record with a truthy id), `none` otherwise. -/
def likeIdOf (r : ReactionRecord) : Option String :=
  if normalizedType r ∈ likeTypes then
    match userIdOf r with
    | some uid => if uid = "" then none else some uid
    | none => none
  else none

/-- The sequence of liker ids before deduplication: one entry per like-type
record carrying a truthy id, in record order. `extractLikerIds` equals
first-occurrence deduplication of this sequence (proved below). -/
def likeIdsRaw (reactions : List ReactionRecord) : List String :=
  reactions.filterMap likeIdOf

/-- Records of a page: `payload.get("value", [])`. -/
def pageRecords (p : PagePayload) : List ReactionRecord :=
  p.value.getD []

/-- Truthiness of the continuation link driving `while next_url`: `None`
and `""` are falsy and end pagination. -/
def linkTruthy : Option String → Bool
  | none => false
  | some s => s ≠ ""

/-- The pagination loop of `_collect_reactions`, run against the sequence of
raw responses the session would deliver to its successive page GETs.
Returns the outcome (`reactions` accumulated, or the exception that unwound
the loop) together with the list of URLs requested, in order. Running out
of configured responses models a transport failure on that GET (the URL is
still requested). -/
def collectReactions : String → List (RawResponse PagePayload) →
    Except GraphErr (List ReactionRecord) × List String
  | url, [] => (Except.error GraphErr.requestFailed, [url])
  | url, resp :: rest =>
    match getJson resp with
    | Except.error e => (Except.error e, [url])
    | Except.ok payload =>
      let recs := pageRecords payload
      if linkTruthy payload.odataNextLink then
        let next := collectReactions (payload.odataNextLink.getD "") rest
        ((next.1.map fun more => recs ++ more), url :: next.2)
      else
        (Except.ok recs, [url])

/-- The network environment of one call: the responses delivered to the
successive reactions-page GETs (pagination follows opaque continuation
URLs, so position indexes them), and the response delivered to the lookup
GET `f"{base_url}/users/{user_id}"` for each user id. -/
structure World where
  pageResponses : List (RawResponse PagePayload)
  userResponses : String → RawResponse UserPayload

/-- Model of `_fetch_user_display_name`: GET the user, return
`payload.get("displayName")` (terminal HTTP/parse errors propagate; a
missing name is returned as `none`, only logged). -/
def fetchUserDisplayName (w : World) (uid : String) : Except GraphErr (Option String) :=
  match getJson (w.userResponses uid) with
  | Except.error e => Except.error e
  | Except.ok payload => Except.ok payload.displayName

/-- The name-resolution loop of `list_like_reactors` (lines 102-108):
for each liker id, fetch the display name; append it when truthy and not
yet seen. Returns the outcome and the list of user ids actually looked up,
in order. -/
def resolveNames (w : World) : List String → List String → List String →
    Except GraphErr (List String) × List String
  | [], displayNames, _seen => (Except.ok displayNames, [])
  | uid :: rest, displayNames, seen =>
    match fetchUserDisplayName w uid with
    | Except.error e => (Except.error e, [uid])
    | Except.ok (some n) =>
      if n ≠ "" ∧ n ∉ seen then
        let next := resolveNames w rest (displayNames ++ [n]) (seen ++ [n])
        (next.1, uid :: next.2)
      else
        let next := resolveNames w rest displayNames seen
        (next.1, uid :: next.2)
    | Except.ok none =>
      let next := resolveNames w rest displayNames seen
      (next.1, uid :: next.2)

/-- Observable outcome of one `list_like_reactors` call: the returned list
(or the exception), the reactions-page URLs requested, and the user ids a
lookup GET was issued for. -/
structure RunResult where
  result : Except GraphErr (List String)
  pageUrls : List String
  userLookups : List String
deriving Repr

/-- Model of `TeamsReactionsClient.list_like_reactors`: build the reactions
URL, collect all pages, extract liker ids, resolve display names. -/
def listLikeReactorsRun (w : World) (baseUrl messageResource : String) : RunResult :=
  let url := buildReactionsUrl (rstripSlashes baseUrl) messageResource
  match collectReactions url w.pageResponses with
  | (Except.error e, urls) => ⟨Except.error e, urls, []⟩
  | (Except.ok reactions, urls) =>
    let likerIds := extractLikerIds reactions
    let res := resolveNames w likerIds [] []
    ⟨res.1, urls, res.2⟩

/-- First-occurrence deduplication with an initial seen set: the reference
shape `extractLikerIds` and the name-level dedup of `list_like_reactors`
are proved to compute. Keeps each element's first occurrence not already
in `seen`, preserving order. -/
def dedupFirst (seen : List String) : List String → List String
  | [] => []
  | x :: xs => if x ∈ seen then dedupFirst seen xs else x :: dedupFirst (x :: seen) xs

/-- The truthy display name a lookup for `uid` yields in world `w`: `some n`
iff the lookup succeeds and the payload's `displayName` is a non-empty
string (the only case in which `list_like_reactors` may append it). -/
def truthyNameOf (w : World) (uid : String) : Option String :=
  match getJson (w.userResponses uid) with
  | Except.ok p =>
    match p.displayName with
    | some n => if n = "" then none else some n
    | none => none
  | Except.error _ => none

/-- A 200 response delivering the page payload `p` as parsed JSON. -/
def okPage (p : PagePayload) : RawResponse PagePayload :=
  ⟨200, some p⟩

/-! ### Properties of first-occurrence deduplication -/

theorem mem_dedupFirst {x : String} :
    ∀ (l seen : List String), x ∈ dedupFirst seen l ↔ x ∈ l ∧ x ∉ seen := by
  intro l
  induction l with
  | nil => intro seen; simp [dedupFirst]
  | cons a xs ih =>
    intro seen
    by_cases h : a ∈ seen
    · rw [dedupFirst, if_pos h]
      rw [ih seen]
      constructor
      · rintro ⟨hx, hs⟩; exact ⟨List.mem_cons_of_mem _ hx, hs⟩
      · rintro ⟨hx, hs⟩
        rcases List.mem_cons.mp hx with rfl | hx
        · exact absurd h hs
        · exact ⟨hx, hs⟩
    · rw [dedupFirst, if_neg h]
      rw [List.mem_cons, ih (a :: seen)]
      constructor
      · rintro (rfl | ⟨hx, hs⟩)
        · exact ⟨List.mem_cons_self _ _, h⟩
        · exact ⟨List.mem_cons_of_mem _ hx, fun hmem => hs (List.mem_cons_of_mem _ hmem)⟩
      · rintro ⟨hx, hs⟩
        rcases List.mem_cons.mp hx with rfl | hx
        · exact Or.inl rfl
        · by_cases hax : x = a
          · exact Or.inl hax
          · exact Or.inr ⟨hx, fun hmem => by
              rcases List.mem_cons.mp hmem with h1 | h1
              · exact hax h1
              · exact hs h1⟩

theorem dedupFirst_sublist : ∀ (l seen : List String), List.Sublist (dedupFirst seen l) l := by
  intro l
  induction l with
  | nil => intro seen; simp [dedupFirst]
  | cons a xs ih =>
    intro seen
    by_cases h : a ∈ seen
    · rw [dedupFirst, if_pos h]
      exact (ih seen).cons a
    · rw [dedupFirst, if_neg h]
      exact (ih (a :: seen)).cons₂ a

theorem dedupFirst_nodup : ∀ (l seen : List String), (dedupFirst seen l).Nodup := by
  intro l
  induction l with
  | nil => intro seen; simp [dedupFirst]
  | cons a xs ih =>
    intro seen
    by_cases h : a ∈ seen
    · rw [dedupFirst, if_pos h]; exact ih seen
    · rw [dedupFirst, if_neg h]
      refine List.Nodup.cons ?_ (ih (a :: seen))
      intro hmem
      exact ((mem_dedupFirst xs (a :: seen)).mp hmem).2 (List.mem_cons_self _ _)

theorem dedupFirst_pairwise_indexOf :
    ∀ (l seen : List String),
      (dedupFirst seen l).Pairwise (fun a b => l.indexOf a < l.indexOf b) := by
  intro l
  induction l with
  | nil => intro seen; simp [dedupFirst]
  | cons a xs ih =>
    intro seen
    by_cases h : a ∈ seen
    · rw [dedupFirst, if_pos h]
      refine (ih seen).imp_of_mem ?_
      intro x y hx hy hlt
      have hxne : x ≠ a := fun he =>
        ((mem_dedupFirst xs seen).mp hx).2 (he ▸ h)
      have hyne : y ≠ a := fun he =>
        ((mem_dedupFirst xs seen).mp hy).2 (he ▸ h)
      rw [List.indexOf_cons_ne xs (Ne.symm hxne), List.indexOf_cons_ne xs (Ne.symm hyne)]
      exact Nat.succ_lt_succ hlt
    · rw [dedupFirst, if_neg h]
      refine List.Pairwise.cons ?_ ?_
      · intro y hy
        have hyne : y ≠ a := fun he =>
          ((mem_dedupFirst xs (a :: seen)).mp hy).2 (he ▸ List.mem_cons_self _ _)
        rw [List.indexOf_cons_self, List.indexOf_cons_ne xs (Ne.symm hyne)]
        exact Nat.succ_pos _
      · refine (ih (a :: seen)).imp_of_mem ?_
        intro x y hx hy hlt
        have hxne : x ≠ a := fun he =>
          ((mem_dedupFirst xs (a :: seen)).mp hx).2 (he ▸ List.mem_cons_self _ _)
        have hyne : y ≠ a := fun he =>
          ((mem_dedupFirst xs (a :: seen)).mp hy).2 (he ▸ List.mem_cons_self _ _)
        rw [List.indexOf_cons_ne xs (Ne.symm hxne), List.indexOf_cons_ne xs (Ne.symm hyne)]
        exact Nat.succ_lt_succ hlt

theorem dedupFirst_toFinset (l : List String) :
    (dedupFirst [] l).toFinset = l.toFinset := by
  ext x
  simp [List.mem_toFinset, mem_dedupFirst]

theorem length_dedupFirst_eq_card (l : List String) :
    (dedupFirst [] l).length = l.toFinset.card := by
  rw [← dedupFirst_toFinset l]
  exact (List.toFinset_card_of_nodup (dedupFirst_nodup l [])).symm

/-! ### The extraction loop computes first-occurrence deduplication -/

theorem extractLikerIdsAux_eq :
    ∀ (rs : List ReactionRecord) (ids seen seen' : List String),
      (∀ x, x ∈ seen ↔ x ∈ seen') →
      extractLikerIdsAux rs ids seen = ids ++ dedupFirst seen' (likeIdsRaw rs) := by
  intro rs
  induction rs with
  | nil =>
    intro ids seen seen' _
    simp [extractLikerIdsAux, likeIdsRaw, dedupFirst]
  | cons r rest ih =>
    intro ids seen seen' hequiv
    rw [extractLikerIdsAux]
    by_cases ht : normalizedType r ∈ likeTypes
    · rw [if_pos ht]
      cases hu : userIdOf r with
      | none =>
        have hlike : likeIdOf r = none := by simp [likeIdOf, ht, hu]
        dsimp only
        rw [likeIdsRaw, List.filterMap_cons_none hlike, ← likeIdsRaw]
        exact ih ids seen seen' hequiv
      | some uid =>
        dsimp only
        by_cases hne : uid = ""
        · have hlike : likeIdOf r = none := by simp [likeIdOf, ht, hu, hne]
          rw [likeIdsRaw, List.filterMap_cons_none hlike, ← likeIdsRaw]
          have hno : ¬(uid ≠ "" ∧ uid ∉ seen) := fun hc => hc.1 hne
          rw [if_neg hno]
          exact ih ids seen seen' hequiv
        · have hlike : likeIdOf r = some uid := by simp [likeIdOf, ht, hu, hne]
          rw [likeIdsRaw, List.filterMap_cons_some hlike, ← likeIdsRaw]
          by_cases hs : uid ∈ seen
          · have hno : ¬(uid ≠ "" ∧ uid ∉ seen) := fun hc => hc.2 hs
            rw [if_neg hno, dedupFirst, if_pos ((hequiv uid).mp hs)]
            exact ih ids seen seen' hequiv
          · rw [if_pos ⟨hne, hs⟩, dedupFirst,
              if_neg (fun hc => hs ((hequiv uid).mpr hc))]
            have hequiv' : ∀ x, x ∈ seen ++ [uid] ↔ x ∈ uid :: seen' := by
              intro x
              simp only [List.mem_append, List.mem_singleton, List.mem_cons, hequiv x]
              tauto
            rw [ih (ids ++ [uid]) (seen ++ [uid]) (uid :: seen') hequiv']
            simp
    · rw [if_neg ht]
      have hlike : likeIdOf r = none := by simp [likeIdOf, ht]
      rw [likeIdsRaw, List.filterMap_cons_none hlike, ← likeIdsRaw]
      exact ih ids seen seen' hequiv

theorem extractLikerIds_eq (rs : List ReactionRecord) :
    extractLikerIds rs = dedupFirst [] (likeIdsRaw rs) := by
  rw [extractLikerIds, extractLikerIdsAux_eq rs [] [] [] (fun x => Iff.rfl)]
  simp

theorem likeIdsRaw_append (a b : List ReactionRecord) :
    likeIdsRaw (a ++ b) = likeIdsRaw a ++ likeIdsRaw b := by
  simp [likeIdsRaw, List.filterMap_append]

theorem likeIdsRaw_flatten (L : List (List ReactionRecord)) :
    likeIdsRaw L.flatten = (L.map likeIdsRaw).flatten := by
  induction L with
  | nil => simp [likeIdsRaw]
  | cons a L ih => simp [List.flatten_cons, likeIdsRaw_append, ih]

theorem extractLikerIds_nodup (rs : List ReactionRecord) :
    (extractLikerIds rs).Nodup := by
  rw [extractLikerIds_eq]
  exact dedupFirst_nodup _ []

theorem length_extractLikerIds (rs : List ReactionRecord) :
    (extractLikerIds rs).length = (likeIdsRaw rs).toFinset.card := by
  rw [extractLikerIds_eq]
  exact length_dedupFirst_eq_card _

/-! ### The pagination walk -/

theorem getJson_okPage (p : PagePayload) : getJson (okPage p) = Except.ok p := rfl

theorem collectReactions_head :
    ∀ (url : String) (resps : List (RawResponse PagePayload)),
      (collectReactions url resps).2.head? = some url := by
  intro url resps
  cases resps with
  | nil => rfl
  | cons r rest =>
    rw [collectReactions]
    cases hg : getJson r with
    | error e => rfl
    | ok payload =>
      dsimp only
      by_cases h : linkTruthy payload.odataNextLink = true
      · rw [if_pos h]
        rfl
      · rw [if_neg h]
        rfl

theorem collectReactions_error_first (url : String) (r : RawResponse PagePayload)
    (rest : List (RawResponse PagePayload)) (e : GraphErr)
    (h : getJson r = Except.error e) :
    collectReactions url (r :: rest) = (Except.error e, [url]) := by
  rw [collectReactions, h]

theorem collectReactions_pages :
    ∀ (k : Nat) (pages : List PagePayload) (url : String)
      (rest : List (RawResponse PagePayload)) (hk : k < pages.length),
      (∀ p ∈ pages.take k, linkTruthy p.odataNextLink = true) →
      linkTruthy (pages.get ⟨k, hk⟩).odataNextLink = false →
      (collectReactions url ((pages.take (k+1)).map okPage ++ rest)).1
          = Except.ok (((pages.take (k+1)).map pageRecords).flatten)
        ∧ (collectReactions url ((pages.take (k+1)).map okPage ++ rest)).2.length
          = k + 1 := by
  intro k
  induction k with
  | zero =>
    intro pages url rest hk h1 h2
    cases pages with
    | nil => exact absurd hk (by simp)
    | cons p ps =>
      have hp : (p :: ps).get ⟨0, hk⟩ = p := rfl
      rw [hp] at h2
      simp only [List.take_succ_cons, List.take_zero, List.map_cons, List.map_nil,
        List.singleton_append]
      rw [collectReactions, getJson_okPage]
      dsimp only
      rw [if_neg (by rw [h2]; exact Bool.false_ne_true)]
      simp
  | succ k ih =>
    intro pages url rest hk h1 h2
    cases pages with
    | nil => exact absurd hk (by simp)
    | cons p ps =>
      have hk' : k < ps.length := Nat.succ_lt_succ_iff.mp hk
      have hplink : linkTruthy p.odataNextLink = true := by
        apply h1
        rw [List.take_succ_cons]
        exact List.mem_cons_self _ _
      have h1' : ∀ q ∈ ps.take k, linkTruthy q.odataNextLink = true := by
        intro q hq
        apply h1
        rw [List.take_succ_cons]
        exact List.mem_cons_of_mem _ hq
      have h2' : linkTruthy (ps.get ⟨k, hk'⟩).odataNextLink = false := h2
      obtain ⟨ihr, ihl⟩ :=
        ih ps (p.odataNextLink.getD "") rest hk' h1' h2'
      simp only [List.take_succ_cons, List.map_cons, List.cons_append]
      rw [collectReactions, getJson_okPage]
      dsimp only
      rw [if_pos hplink]
      constructor
      · dsimp only
        rw [ihr]
        simp only [Except.map]
        simp [List.flatten_cons]
      · dsimp only
        rw [List.length_cons, ihl]

/-! ### The name-resolution loop -/

theorem resolveNames_of_lookups_ok :
    ∀ (w : World) (ids names seen seen' : List String),
      (∀ uid ∈ ids, ∃ p, getJson (w.userResponses uid) = Except.ok p) →
      (∀ x, x ∈ seen ↔ x ∈ seen') →
      resolveNames w ids names seen
        = (Except.ok (names ++ dedupFirst seen' (ids.filterMap (truthyNameOf w))), ids) := by
  intro w ids
  induction ids with
  | nil =>
    intro names seen seen' _ _
    simp [resolveNames, dedupFirst]
  | cons uid rest ih =>
    intro names seen seen' hok hequiv
    obtain ⟨p, hp⟩ := hok uid (List.mem_cons_self _ _)
    have hfetch : fetchUserDisplayName w uid = Except.ok p.displayName := by
      rw [fetchUserDisplayName, hp]
    have hrest : ∀ u ∈ rest, ∃ q, getJson (w.userResponses u) = Except.ok q :=
      fun u hu => hok u (List.mem_cons_of_mem _ hu)
    rw [resolveNames, hfetch]
    cases hd : p.displayName with
    | none =>
      have htn : truthyNameOf w uid = none := by simp [truthyNameOf, hp, hd]
      dsimp only
      rw [List.filterMap_cons_none htn, ih names seen seen' hrest hequiv]
    | some n =>
      dsimp only
      by_cases hne : n = ""
      · have htn : truthyNameOf w uid = none := by simp [truthyNameOf, hp, hd, hne]
        have hno : ¬(n ≠ "" ∧ n ∉ seen) := fun hc => hc.1 hne
        rw [if_neg hno, List.filterMap_cons_none htn,
          ih names seen seen' hrest hequiv]
      · have htn : truthyNameOf w uid = some n := by simp [truthyNameOf, hp, hd, hne]
        rw [List.filterMap_cons_some htn]
        by_cases hs : n ∈ seen
        · have hno : ¬(n ≠ "" ∧ n ∉ seen) := fun hc => hc.2 hs
          rw [if_neg hno, dedupFirst, if_pos ((hequiv n).mp hs),
            ih names seen seen' hrest hequiv]
        · rw [if_pos ⟨hne, hs⟩, dedupFirst,
            if_neg (fun hc => hs ((hequiv n).mpr hc))]
          have hequiv' : ∀ x, x ∈ seen ++ [n] ↔ x ∈ n :: seen' := by
            intro x
            simp only [List.mem_append, List.mem_singleton, List.mem_cons, hequiv x]
            tauto
          rw [ih (names ++ [n]) (seen ++ [n]) (n :: seen') hrest hequiv']
          simp

theorem lookups_ok_of_resolveNames_ok :
    ∀ (w : World) (ids names seen out : List String),
      (resolveNames w ids names seen).1 = Except.ok out →
      ∀ uid ∈ ids, ∃ p, getJson (w.userResponses uid) = Except.ok p := by
  intro w ids
  induction ids with
  | nil =>
    intro names seen out _ uid hmem
    exact absurd hmem (List.not_mem_nil _)
  | cons uid rest ih =>
    intro names seen out hres u hu
    rw [resolveNames] at hres
    cases hg : getJson (w.userResponses uid) with
    | error e =>
      have hfetch : fetchUserDisplayName w uid = Except.error e := by
        rw [fetchUserDisplayName, hg]
      rw [hfetch] at hres
      simp at hres
    | ok p =>
      have hfetch : fetchUserDisplayName w uid = Except.ok p.displayName := by
        rw [fetchUserDisplayName, hg]
      rw [hfetch] at hres
      rcases List.mem_cons.mp hu with rfl | hu'
      · exact ⟨p, hg⟩
      · cases hd : p.displayName with
        | none =>
          rw [hd] at hres
          dsimp only at hres
          exact ih names seen out hres u hu'
        | some n =>
          rw [hd] at hres
          dsimp only at hres
          by_cases hc : n ≠ "" ∧ n ∉ seen
          · rw [if_pos hc] at hres
            exact ih (names ++ [n]) (seen ++ [n]) out hres u hu'
          · rw [if_neg hc] at hres
            exact ih names seen out hres u hu'

theorem resolveNames_error_first (w : World) (uid : String) (rest names seen : List String)
    (e : GraphErr) (h : getJson (w.userResponses uid) = Except.error e) :
    (resolveNames w (uid :: rest) names seen).1 = Except.error e := by
  have hfetch : fetchUserDisplayName w uid = Except.error e := by
    rw [fetchUserDisplayName, h]
  rw [resolveNames, hfetch]

/-! ### The orchestrating call -/

theorem listLikeReactorsRun_pageUrls (w : World) (b m : String) :
    (listLikeReactorsRun w b m).pageUrls
      = (collectReactions (buildReactionsUrl (rstripSlashes b) m) w.pageResponses).2 := by
  rw [listLikeReactorsRun]
  cases h : collectReactions (buildReactionsUrl (rstripSlashes b) m) w.pageResponses with
  | mk res urls => cases res <;> simp

theorem listLikeReactorsRun_collect_error (w : World) (b m : String) (e : GraphErr)
    (urls : List String)
    (h : collectReactions (buildReactionsUrl (rstripSlashes b) m) w.pageResponses
      = (Except.error e, urls)) :
    listLikeReactorsRun w b m = ⟨Except.error e, urls, []⟩ := by
  rw [listLikeReactorsRun, h]

theorem listLikeReactorsRun_collect_ok (w : World) (b m : String)
    (reactions : List ReactionRecord) (urls : List String)
    (h : collectReactions (buildReactionsUrl (rstripSlashes b) m) w.pageResponses
      = (Except.ok reactions, urls)) :
    listLikeReactorsRun w b m
      = ⟨(resolveNames w (extractLikerIds reactions) [] []).1, urls,
         (resolveNames w (extractLikerIds reactions) [] []).2⟩ := by
  rw [listLikeReactorsRun, h]

/-! ### Concrete fixtures for counterexamples and witnesses -/

/-- A like reaction by `uid` through the `user` field. -/
def likeR (uid : String) : ReactionRecord :=
  ⟨some "like", UserRef.ref (some uid), UserRef.absent⟩

/-- A 200 user-lookup response carrying the given `displayName` value. -/
def okUser (n : Option String) : RawResponse UserPayload :=
  ⟨200, some ⟨n⟩⟩

/-- A world delivering one empty reactions page; user lookups yield no name. -/
def zeroPageWorld : World :=
  ⟨[okPage ⟨some [], none⟩], fun _ => okUser none⟩

/-- A reaction record whose `user` dict is non-empty but carries an empty
id, while `createdBy` carries the usable id `u2`. -/
def emptyIdRecord : ReactionRecord :=
  ⟨some "like", UserRef.ref (some ""), UserRef.ref (some "u2")⟩

/-- A like reaction with neither `user` nor `createdBy` information. -/
def noIdRecord : ReactionRecord :=
  ⟨some "like", UserRef.absent, UserRef.absent⟩

/-- A world delivering a single page holding only `noIdRecord`. -/
def noIdWorld : World :=
  ⟨[okPage ⟨some [noIdRecord], none⟩], fun _ => okUser none⟩

/-- A heart reaction (not a like-equivalent type). -/
def heartRecord : ReactionRecord :=
  ⟨some "HEART", UserRef.ref (some "u1"), UserRef.absent⟩

/-- A world resolving `u1` to Alice and every other id to Bob. -/
def twoNamesWorld : World :=
  ⟨[], fun uid => if uid = "u1" then okUser (some "Alice") else okUser (some "Bob")⟩

/-- A world resolving every id to the same display name Alice. -/
def sameNameWorld : World :=
  ⟨[], fun _ => okUser (some "Alice")⟩

/-- A world where the lookup for `u1` lacks a display name and every other
lookup yields Bob. -/
def missingNameWorld : World :=
  ⟨[], fun uid => if uid = "u1" then okUser none else okUser (some "Bob")⟩

/-- A world whose single page response has status 300 (non-2xx, yet `ok`
for the `requests` library) with a JSON body. -/
def redirectWorld : World :=
  ⟨[⟨300, some ⟨some [], none⟩⟩], fun _ => okUser none⟩

/-- A world whose single page response is a persistent 500 (as delivered
after the transport's retry budget). -/
def failWorld : World :=
  ⟨[⟨500, some ⟨some [], none⟩⟩], fun _ => okUser none⟩

/-- Two page payloads: the first carries a continuation link, the second
does not. -/
def twoPages : List PagePayload :=
  [⟨some [likeR "u1"], some "n"⟩, ⟨some [likeR "u1"], none⟩]

/-! ### Claims -/

/-- C1 counterexample: with an empty message resource path, the call does
NOT fail with a validation error before network I/O, and a GET is
performed: there is no validation in `_build_reactions_url` or
`list_like_reactors`; the code builds `{base_url}//reactions` and issues
the page GET (here answered with an empty page, so the call even returns
`[]` successfully). -/
theorem c1_counterexample :
    (listLikeReactorsRun zeroPageWorld "https://graph.microsoft.com/v1.0" "").pageUrls
        = ["https://graph.microsoft.com/v1.0//reactions"]
      ∧ (listLikeReactorsRun zeroPageWorld "https://graph.microsoft.com/v1.0" "").result
        = Except.ok [] :=
  ⟨rfl, rfl⟩

/-- C1 (amended): for every call whose message resource path is empty or
consists only of `/` separators (i.e. strips to the empty path), no
validation error precedes network I/O: the reactions-page GET is always
issued, on the URL built with the empty path segment,
`{base_url}//reactions`. -/
theorem c1_empty_path_gets (w : World) (baseUrl messageResource : String)
    (h : stripSlashes messageResource = "") :
    (listLikeReactorsRun w baseUrl messageResource).pageUrls.head?
        = some (rstripSlashes baseUrl ++ "//reactions")
      ∧ (listLikeReactorsRun w baseUrl messageResource).pageUrls ≠ [] := by
  have hurl : buildReactionsUrl (rstripSlashes baseUrl) messageResource
      = rstripSlashes baseUrl ++ "//reactions" := by
    rw [buildReactionsUrl, h, String.append_empty, String.append_assoc]
    rfl
  have hhead := collectReactions_head
    (buildReactionsUrl (rstripSlashes baseUrl) messageResource) w.pageResponses
  constructor
  · rw [listLikeReactorsRun_pageUrls, hhead, hurl]
  · intro hnil
    rw [listLikeReactorsRun_pageUrls] at hnil
    rw [hnil] at hhead
    simp at hhead

/-- C1 witness: the amended statement at the concrete resource `"///"`. -/
theorem c1_empty_path_gets_witness :
    (listLikeReactorsRun zeroPageWorld "b" "///").pageUrls.head?
        = some (rstripSlashes "b" ++ "//reactions")
      ∧ (listLikeReactorsRun zeroPageWorld "b" "///").pageUrls ≠ [] :=
  c1_empty_path_gets zeroPageWorld "b" "///" rfl

/-- C2 counterexample: in `emptyIdRecord` the `user`-sourced id is the
empty string and `createdBy` holds the usable id `u2`, yet the record is
skipped (output `[]`, not `["u2"]`): the fallback in `_extract_liker_ids`
is keyed on the truthiness of the `user` dict, not of the id drawn from
it. -/
theorem c2_counterexample :
    userIdOf emptyIdRecord = some ""
      ∧ (emptyIdRecord.createdBy).getId = some "u2"
      ∧ extractLikerIds [emptyIdRecord] = [] :=
  ⟨rfl, rfl, rfl⟩

/-- C2 (amended): the actor id source is chosen by dict truthiness: a
non-empty `user` object always supplies the id (even when that id is
absent or empty — `createdBy` is then never consulted); `createdBy`
supplies the id only when the `user` field is absent/null/empty; a record
whose chosen id is absent or empty is skipped silently; and a single-page
input whose only record has neither `user` nor `createdBy` yields `[]`
with no user-lookup request. -/
theorem c2_id_extraction (t id : Option String) (cb : UserRef)
    (r : ReactionRecord) (rs1 rs2 : List ReactionRecord)
    (w : World) (baseUrl messageResource : String) :
    userIdOf ⟨t, UserRef.ref id, cb⟩ = id
      ∧ userIdOf ⟨t, UserRef.absent, cb⟩ = cb.getId
      ∧ (userIdOf r = none ∨ userIdOf r = some "" →
          extractLikerIds (rs1 ++ r :: rs2) = extractLikerIds (rs1 ++ rs2))
      ∧ (w.pageResponses = [okPage ⟨some [⟨t, UserRef.absent, UserRef.absent⟩], none⟩] →
          listLikeReactorsRun w baseUrl messageResource
            = ⟨Except.ok [],
               [buildReactionsUrl (rstripSlashes baseUrl) messageResource], []⟩) := by
  refine ⟨rfl, rfl, ?_, ?_⟩
  · intro h
    have hl : likeIdOf r = none := by
      rcases h with h | h <;> simp [likeIdOf, h]
    rw [extractLikerIds_eq, extractLikerIds_eq, likeIdsRaw_append, likeIdsRaw_append]
    have hc : likeIdsRaw (r :: rs2) = likeIdsRaw rs2 := List.filterMap_cons_none hl
    rw [hc]
  · intro hw
    have hcol : collectReactions (buildReactionsUrl (rstripSlashes baseUrl) messageResource)
        w.pageResponses
        = (Except.ok [(⟨t, UserRef.absent, UserRef.absent⟩ : ReactionRecord)],
           [buildReactionsUrl (rstripSlashes baseUrl) messageResource]) := by
      rw [hw]
      rfl
    rw [listLikeReactorsRun_collect_ok w baseUrl messageResource _ _ hcol]
    have hids : extractLikerIds [(⟨t, UserRef.absent, UserRef.absent⟩ : ReactionRecord)]
        = [] := by
      rw [extractLikerIds_eq]
      have hl : likeIdOf ⟨t, UserRef.absent, UserRef.absent⟩ = none := by
        simp [likeIdOf, userIdOf, UserRef.orElse, UserRef.getId]
      have hc : likeIdsRaw [(⟨t, UserRef.absent, UserRef.absent⟩ : ReactionRecord)]
          = likeIdsRaw [] := List.filterMap_cons_none hl
      rw [hc]
      rfl
    rw [hids]
    rfl

/-- C2 witness: the amended statement at concrete inputs, including the
spec's end-to-end scenario B (single page, no usable id field: result `[]`
and no lookup call). -/
theorem c2_id_extraction_witness :
    extractLikerIds ([] ++ (⟨some "like", UserRef.ref none, UserRef.absent⟩ : ReactionRecord)
        :: []) = extractLikerIds ([] ++ [])
      ∧ listLikeReactorsRun noIdWorld "b" "m" = ⟨Except.ok [], ["b/m/reactions"], []⟩ :=
  ⟨(c2_id_extraction (some "like") none UserRef.absent
      ⟨some "like", UserRef.ref none, UserRef.absent⟩ [] [] noIdWorld "b" "m").2.2.1
      (Or.inl rfl),
   (c2_id_extraction (some "like") none UserRef.absent
      ⟨some "like", UserRef.ref none, UserRef.absent⟩ [] [] noIdWorld "b" "m").2.2.2 rfl⟩

/-- C5: a record is retained by the type filter of `_extract_liker_ids`
iff its reaction type, lowercased, is one of `like`, `thumbsup`,
`thumbs_up`: a record failing that test contributes nothing to the output
wherever it sits (discarded without error, including unknown or missing
types, whose normalized form is not in the set), while a record passing it
(with a usable id) has its id in the output. -/
theorem c5_type_filter (r : ReactionRecord) (rs1 rs2 : List ReactionRecord) (uid : String) :
    (normalizedType r ∉ likeTypes →
        extractLikerIds (rs1 ++ r :: rs2) = extractLikerIds (rs1 ++ rs2))
      ∧ (normalizedType r ∈ likeTypes → userIdOf r = some uid → uid ≠ "" →
          uid ∈ extractLikerIds (rs1 ++ r :: rs2)) := by
  constructor
  · intro ht
    have hl : likeIdOf r = none := by simp [likeIdOf, ht]
    rw [extractLikerIds_eq, extractLikerIds_eq, likeIdsRaw_append, likeIdsRaw_append]
    have hc : likeIdsRaw (r :: rs2) = likeIdsRaw rs2 := List.filterMap_cons_none hl
    rw [hc]
  · intro ht hu hne
    have hl : likeIdOf r = some uid := by simp [likeIdOf, ht, hu, hne]
    rw [extractLikerIds_eq]
    refine (mem_dedupFirst _ _).mpr ⟨?_, List.not_mem_nil _⟩
    rw [likeIdsRaw_append]
    refine List.mem_append_right _ ?_
    have hc : likeIdsRaw (r :: rs2) = uid :: likeIdsRaw rs2 := List.filterMap_cons_some hl
    rw [hc]
    exact List.mem_cons_self _ _

/-- C5 witness: a `HEART` reaction is discarded; a `like` reaction's id is
retained. -/
theorem c5_type_filter_witness :
    extractLikerIds ([] ++ heartRecord :: [likeR "u1"]) = extractLikerIds ([] ++ [likeR "u1"])
      ∧ "u1" ∈ extractLikerIds ([] ++ likeR "u1" :: []) :=
  ⟨(c5_type_filter heartRecord [] [likeR "u1"] "u1").1 (by decide),
   (c5_type_filter (likeR "u1") [] [] "u1").2 (by decide) rfl (by decide)⟩

/-- C10: page processing is total over degenerate payload shapes: a
payload without a `value` key contributes zero records and pagination
continues or stops normally (no exception — the result is an ordinary
value of the model, `Except.ok` when the walk ends); a continuation link
that is absent or the empty string ends pagination after that page's
single GET (an absent link models both a missing key and a `null` value,
which `payload.get` conflates). -/
theorem c10_degenerate_payloads (url lnk : String) (v : Option (List ReactionRecord))
    (rest : List (RawResponse PagePayload)) :
    (lnk ≠ "" →
        (collectReactions url (okPage ⟨none, some lnk⟩ :: rest)).1
          = (collectReactions lnk rest).1)
      ∧ collectReactions url (okPage ⟨v, none⟩ :: rest) = (Except.ok (v.getD []), [url])
      ∧ collectReactions url (okPage ⟨v, some ""⟩ :: rest) = (Except.ok (v.getD []), [url])
      ∧ pageRecords ⟨none, some lnk⟩ = [] := by
  refine ⟨?_, rfl, rfl, rfl⟩
  intro h
  rw [collectReactions, getJson_okPage]
  dsimp only
  rw [if_pos (by simp [linkTruthy, h])]
  show Except.map (fun more => pageRecords ⟨none, some lnk⟩ ++ more)
      (collectReactions lnk rest).1 = (collectReactions lnk rest).1
  cases (collectReactions lnk rest).1 with
  | error e => rfl
  | ok recs => rfl

/-- C10 witness: a value-less page chained to a terminal page, and a
concrete terminal page. -/
theorem c10_degenerate_payloads_witness :
    (collectReactions "u" (okPage ⟨none, some "n"⟩ :: [okPage ⟨some [], none⟩])).1
        = (collectReactions "n" [okPage ⟨some [], none⟩]).1
      ∧ collectReactions "u" (okPage ⟨some [likeR "u1"], none⟩ :: [])
        = (Except.ok [likeR "u1"], ["u"]) :=
  ⟨(c10_degenerate_payloads "u" "n" none [okPage ⟨some [], none⟩]).1 (by decide),
   (c10_degenerate_payloads "u" "n" (some [likeR "u1"]) []).2.1⟩

/-- C3: across the concatenated record sequence of all pages, an id already
added is never added again (the liker-id list is duplicate-free), each
retained id sits at the position determined by the first occurrence of that
id in the pre-dedup sequence (pairwise, ids are ordered by their first
occurrence index), and on a successful resolution the output display names
appear in the order of the ids they were resolved from (the output is a
sublist of the names taken in liker-id order). -/
theorem c3_first_seen_order (pages : List (List ReactionRecord)) (w : World)
    (out log : List String)
    (hres : resolveNames w (extractLikerIds pages.flatten) [] []
      = (Except.ok out, log)) :
    (extractLikerIds pages.flatten).Nodup
      ∧ (extractLikerIds pages.flatten).Pairwise
          (fun a b => (likeIdsRaw pages.flatten).indexOf a
            < (likeIdsRaw pages.flatten).indexOf b)
      ∧ List.Sublist out
          ((extractLikerIds pages.flatten).filterMap (truthyNameOf w)) := by
  refine ⟨extractLikerIds_nodup _, ?_, ?_⟩
  · rw [extractLikerIds_eq]
    exact dedupFirst_pairwise_indexOf _ _
  · have h1 : (resolveNames w (extractLikerIds pages.flatten) [] []).1
        = Except.ok out := by rw [hres]
    have hok := lookups_ok_of_resolveNames_ok w (extractLikerIds pages.flatten)
      [] [] out h1
    have h2 := resolveNames_of_lookups_ok w (extractLikerIds pages.flatten)
      [] [] [] hok (fun x => Iff.rfl)
    have hout : dedupFirst []
        ((extractLikerIds pages.flatten).filterMap (truthyNameOf w)) = out := by
      have h3 := congrArg Prod.fst (h2.symm.trans hres)
      simpa using h3
    rw [← hout]
    exact dedupFirst_sublist _ []

/-- C3 witness: two single-record pages, ids `u1`, `u2`, resolved to Alice
and Bob. -/
theorem c3_first_seen_order_witness :
    (extractLikerIds [[likeR "u1"], [likeR "u2"]].flatten).Nodup
      ∧ List.Sublist ["Alice", "Bob"]
          ((extractLikerIds [[likeR "u1"], [likeR "u2"]].flatten).filterMap
            (truthyNameOf twoNamesWorld)) :=
  ⟨(c3_first_seen_order [[likeR "u1"], [likeR "u2"]] twoNamesWorld
      ["Alice", "Bob"] ["u1", "u2"] rfl).1,
   (c3_first_seen_order [[likeR "u1"], [likeR "u2"]] twoNamesWorld
      ["Alice", "Bob"] ["u1", "u2"] rfl).2.2⟩

/-- C4: on a successful resolution, the output has no duplicate names; it
equals the first-occurrence deduplication of the names resolved in liker-id
order (so a name shared by several ids sits at the position contributed by
the first id that resolved to it); and when two distinct ids resolve to the
same truthy name, that name appears exactly once. -/
theorem c4_name_level_dedup (w : World) (ids out log : List String) (n u1 u2 : String)
    (hres : resolveNames w ids [] [] = (Except.ok out, log)) :
    out.Nodup
      ∧ out = dedupFirst [] (ids.filterMap (truthyNameOf w))
      ∧ (u1 ∈ ids → u2 ∈ ids → u1 ≠ u2 → truthyNameOf w u1 = some n →
          truthyNameOf w u2 = some n → out.count n = 1) := by
  have h1 : (resolveNames w ids [] []).1 = Except.ok out := by rw [hres]
  have hok := lookups_ok_of_resolveNames_ok w ids [] [] out h1
  have h2 := resolveNames_of_lookups_ok w ids [] [] [] hok (fun x => Iff.rfl)
  have hout : out = dedupFirst [] (ids.filterMap (truthyNameOf w)) := by
    have h3 := congrArg Prod.fst (h2.symm.trans hres)
    simpa using h3.symm
  refine ⟨?_, hout, ?_⟩
  · rw [hout]
    exact dedupFirst_nodup _ _
  · intro hu1 _ _ htn1 _
    rw [hout]
    refine List.count_eq_one_of_mem (dedupFirst_nodup _ _) ?_
    refine (mem_dedupFirst _ _).mpr ⟨?_, List.not_mem_nil _⟩
    exact List.mem_filterMap.mpr ⟨u1, hu1, htn1⟩

/-- C4 witness: two distinct ids both resolved to Alice; the output is
`["Alice"]` and counts Alice once. -/
theorem c4_name_level_dedup_witness :
    (["Alice"] : List String).Nodup ∧ List.count "Alice" ["Alice"] = 1 :=
  ⟨(c4_name_level_dedup sameNameWorld ["u1", "u2"] ["Alice"] ["u1", "u2"]
      "Alice" "u1" "u2" rfl).1,
   (c4_name_level_dedup sameNameWorld ["u1", "u2"] ["Alice"] ["u1", "u2"]
      "Alice" "u1" "u2" rfl).2.2 (by decide) (by decide) (by decide) rfl rfl⟩

/-- C6: on a successful pagination walk (links present up to the first
link-less page, every response a 200 JSON page), the accumulated record
list is exactly the concatenation of the pages' `value` lists — each page
appended exactly once — hence the pre-dedup liker-id sequence is the
concatenation of the per-page liker-id sequences, its length the sum of the
per-page counts of like-reactions carrying a usable id, and the deduped
liker-id count is the number of distinct such ids. -/
theorem c6_pagination_accumulation (k : Nat) (pages : List PagePayload) (url : String)
    (rest : List (RawResponse PagePayload)) (hk : k < pages.length)
    (h1 : ∀ p ∈ pages.take k, linkTruthy p.odataNextLink = true)
    (h2 : linkTruthy (pages.get ⟨k, hk⟩).odataNextLink = false) :
    (collectReactions url ((pages.take (k+1)).map okPage ++ rest)).1
        = Except.ok (((pages.take (k+1)).map pageRecords).flatten)
      ∧ likeIdsRaw (((pages.take (k+1)).map pageRecords).flatten)
        = (((pages.take (k+1)).map pageRecords).map likeIdsRaw).flatten
      ∧ (likeIdsRaw (((pages.take (k+1)).map pageRecords).flatten)).length
        = (((pages.take (k+1)).map pageRecords).map
            (fun recs => (likeIdsRaw recs).length)).sum
      ∧ (extractLikerIds (((pages.take (k+1)).map pageRecords).flatten)).length
        = (likeIdsRaw (((pages.take (k+1)).map pageRecords).flatten)).toFinset.card := by
  refine ⟨(collectReactions_pages k pages url rest hk h1 h2).1,
    likeIdsRaw_flatten _, ?_, length_extractLikerIds _⟩
  rw [likeIdsRaw_flatten, List.length_flatten, List.map_map]
  rfl

/-- C6 witness: two pages of one like each by the same user; the walk
collects both records, the pre-dedup count is 2, the deduped count 1. -/
theorem c6_pagination_accumulation_witness :
    (collectReactions "u" ((twoPages.take 2).map okPage ++ [])).1
        = Except.ok (((twoPages.take 2).map pageRecords).flatten)
      ∧ (likeIdsRaw (((twoPages.take 2).map pageRecords).flatten)).length
        = (((twoPages.take 2).map pageRecords).map
            (fun recs => (likeIdsRaw recs).length)).sum
      ∧ (extractLikerIds (((twoPages.take 2).map pageRecords).flatten)).length
        = (likeIdsRaw (((twoPages.take 2).map pageRecords).flatten)).toFinset.card :=
  ⟨(c6_pagination_accumulation 1 twoPages "u" [] (by decide) (by decide) (by decide)).1,
   (c6_pagination_accumulation 1 twoPages "u" [] (by decide) (by decide) (by decide)).2.2.1,
   (c6_pagination_accumulation 1 twoPages "u" [] (by decide) (by decide) (by decide)).2.2.2⟩

/-- C7 counterexample to the claim as stated: status 300 is a non-2xx
response the transport does not retry, yet `response.ok` (status < 400)
holds, so `_get_json` does not raise: with a JSON body the whole call
succeeds instead of raising. -/
theorem c7_counterexample :
    statusOk 300 = true
      ∧ (listLikeReactorsRun redirectWorld "b" "m").result = Except.ok [] :=
  ⟨rfl, rfl⟩

/-- C7 (amended): replace "non-2xx" by "non-ok (status ≥ 400)": any
delivered response with status ≥ 400 makes `_get_json` raise; a first-page
terminal failure (HTTP error or non-JSON body) unwinds the whole call with
no partial list and no user lookups; any terminal pagination failure
likewise yields the error with no lookups; a failing user lookup at the
head of the remaining ids unwinds the resolution; and a successful
resolution implies every consumed lookup succeeded (no per-user failure is
swallowed). -/
theorem c7_terminal_failures :
    (∀ (s : Nat) (b : Option PagePayload), 400 ≤ s →
        getJson (⟨s, b⟩ : RawResponse PagePayload)
          = Except.error (GraphErr.httpStatus s))
      ∧ (∀ (w : World) (baseUrl messageResource : String) (e : GraphErr)
            (r : RawResponse PagePayload) (rest : List (RawResponse PagePayload)),
          w.pageResponses = r :: rest → getJson r = Except.error e →
          listLikeReactorsRun w baseUrl messageResource
            = ⟨Except.error e,
               [buildReactionsUrl (rstripSlashes baseUrl) messageResource], []⟩)
      ∧ (∀ (w : World) (baseUrl messageResource : String) (e : GraphErr)
            (urls : List String),
          collectReactions (buildReactionsUrl (rstripSlashes baseUrl) messageResource)
              w.pageResponses = (Except.error e, urls) →
          listLikeReactorsRun w baseUrl messageResource = ⟨Except.error e, urls, []⟩)
      ∧ (∀ (w : World) (uid : String) (rest names seen : List String) (e : GraphErr),
          getJson (w.userResponses uid) = Except.error e →
          (resolveNames w (uid :: rest) names seen).1 = Except.error e)
      ∧ (∀ (w : World) (ids names seen out : List String),
          (resolveNames w ids names seen).1 = Except.ok out →
          ∀ uid ∈ ids, ∃ p, getJson (w.userResponses uid) = Except.ok p) := by
  refine ⟨?_, ?_, ?_, resolveNames_error_first, lookups_ok_of_resolveNames_ok⟩
  · intro s b h
    have hs : statusOk s = false := by
      simp only [statusOk, decide_eq_false_iff_not]
      omega
    simp [getJson, hs]
  · intro w baseUrl messageResource e r rest hw hg
    refine listLikeReactorsRun_collect_error w baseUrl messageResource e _ ?_
    rw [hw]
    exact collectReactions_error_first _ r rest e hg
  · intro w baseUrl messageResource e urls h
    exact listLikeReactorsRun_collect_error w baseUrl messageResource e urls h

/-- C7 witness: the spec's scenario C — a persistent 500 on the reactions
fetch raises the HTTP error with no user lookups issued. -/
theorem c7_terminal_failures_witness :
    getJson (⟨500, none⟩ : RawResponse PagePayload)
        = Except.error (GraphErr.httpStatus 500)
      ∧ listLikeReactorsRun failWorld "b" "m"
        = ⟨Except.error (GraphErr.httpStatus 500), ["b/m/reactions"], []⟩ :=
  ⟨c7_terminal_failures.1 500 none (by decide),
   c7_terminal_failures.2.1 failWorld "b" "m" (GraphErr.httpStatus 500)
     ⟨500, some ⟨some [], none⟩⟩ [] rfl rfl⟩

/-- C8: on a successful call, an id whose lookup yields an empty or missing
display name contributes nothing (the output is the first-occurrence dedup
of the truthy names only, resolved in liker-id order — missing names are
skipped, the call still succeeds rather than raising), hence the output
length is at most the number of unique liker ids (the liker-id list being
duplicate-free, its length is that number). -/
theorem c8_missing_name_dropped (w : World) (rs : List ReactionRecord)
    (out log : List String)
    (hres : resolveNames w (extractLikerIds rs) [] [] = (Except.ok out, log)) :
    out = dedupFirst [] ((extractLikerIds rs).filterMap (truthyNameOf w))
      ∧ out.length ≤ (extractLikerIds rs).length
      ∧ (extractLikerIds rs).Nodup := by
  have h1 : (resolveNames w (extractLikerIds rs) [] []).1 = Except.ok out := by
    rw [hres]
  have hok := lookups_ok_of_resolveNames_ok w (extractLikerIds rs) [] [] out h1
  have h2 := resolveNames_of_lookups_ok w (extractLikerIds rs) [] [] [] hok
    (fun x => Iff.rfl)
  have hout : out = dedupFirst [] ((extractLikerIds rs).filterMap (truthyNameOf w)) := by
    have h3 := congrArg Prod.fst (h2.symm.trans hres)
    simpa using h3.symm
  refine ⟨hout, ?_, extractLikerIds_nodup rs⟩
  rw [hout]
  calc (dedupFirst [] ((extractLikerIds rs).filterMap (truthyNameOf w))).length
      ≤ ((extractLikerIds rs).filterMap (truthyNameOf w)).length :=
        (dedupFirst_sublist _ []).length_le
    _ ≤ (extractLikerIds rs).length := List.length_filterMap_le _ _

/-- C8 witness: two liker ids, the first with a missing display name: the
call succeeds with output `["Bob"]`, shorter than the id list. -/
theorem c8_missing_name_dropped_witness :
    (["Bob"] : List String)
        = dedupFirst []
            ((extractLikerIds [likeR "u1", likeR "u2"]).filterMap
              (truthyNameOf missingNameWorld))
      ∧ (["Bob"] : List String).length
        ≤ (extractLikerIds [likeR "u1", likeR "u2"]).length :=
  ⟨(c8_missing_name_dropped missingNameWorld [likeR "u1", likeR "u2"]
      ["Bob"] ["u1", "u2"] rfl).1,
   (c8_missing_name_dropped missingNameWorld [likeR "u1", likeR "u2"]
      ["Bob"] ["u1", "u2"] rfl).2.1⟩

/-- C9: when the k-th page (0-based) is the first whose payload carries no
truthy continuation link, the pagination loop terminates with a successful
result after consuming exactly the first k+1 responses — one GET per page,
`k+1` URLs requested — and never touches the arbitrary `rest` of the
response stream (it stops at that first link-less page). -/
theorem c9_pagination_terminates (k : Nat) (pages : List PagePayload) (url : String)
    (rest : List (RawResponse PagePayload)) (hk : k < pages.length)
    (h1 : ∀ p ∈ pages.take k, linkTruthy p.odataNextLink = true)
    (h2 : linkTruthy (pages.get ⟨k, hk⟩).odataNextLink = false) :
    (collectReactions url ((pages.take (k+1)).map okPage ++ rest)).1
        = Except.ok (((pages.take (k+1)).map pageRecords).flatten)
      ∧ (collectReactions url ((pages.take (k+1)).map okPage ++ rest)).2.length
        = k + 1 :=
  collectReactions_pages k pages url rest hk h1 h2

/-- C9 witness: a two-page walk — the second page has no link — issues
exactly two page GETs even with extra responses configured after it. -/
theorem c9_pagination_terminates_witness :
    (collectReactions "u" ((twoPages.take 2).map okPage ++ [okPage ⟨some [], none⟩])).1
        = Except.ok (((twoPages.take 2).map pageRecords).flatten)
      ∧ (collectReactions "u"
          ((twoPages.take 2).map okPage ++ [okPage ⟨some [], none⟩])).2.length = 2 :=
  ⟨(c9_pagination_terminates 1 twoPages "u" [okPage ⟨some [], none⟩]
      (by decide) (by decide) (by decide)).1,
   (c9_pagination_terminates 1 twoPages "u" [okPage ⟨some [], none⟩]
      (by decide) (by decide) (by decide)).2⟩

end TeamsResponses
